import Mathlib

/-!
Verification development for the `lusion` network server core
(`lusion-core/src/net/mod.rs` and `lusion-core/src/handler.rs`).

The Rust code is embedded shallowly:

* `io::Error` values become the `IOError` structure (kind plus message),
  matching how the code constructs them (`io::ErrorKind::InvalidInput`
  converted via `From`, `io::Error::new(Other, "connect handler must be set")`,
  and the spawn-failure wrapper message).
* `NetServer::serve` performs I/O; its interactions with the operating
  system and the `futures`/`romio` libraries are captured by an explicit
  environment `NetEnv` of oracles (address-resolution result, pool-creation
  result, bind result per address, the observed prefix of the listener's
  incoming stream, and the pool-submission result per accepted connection).
  `NetServer.serve` then becomes a pure function from the server value and
  the environment to a result together with a linearized event trace.
* The incoming stream of a bound TCP listener (`romio`'s `Incoming`) never
  yields `None`: it is an endless accept stream.  The environment therefore
  carries a finite *observed prefix* of it, and exhausting the prefix leaves
  the accept loop still awaiting the next connection, modelled by the result
  `ServeResult.running` (serve has not returned).  The `Ok(())` after the
  `while let` in the source is reachable only if the stream ends, which it
  does not.
* Tasks submitted to the worker pool run concurrently with the accept loop;
  the trace linearizes each task's events (handler outcome, error logging)
  immediately after its submission event.  No claim below depends on
  cross-connection ordering, only on presence and multiplicity of events.
-/

/-- Kind of an `io::Error`, restricted to the kinds the server core can
produce or pass through: `InvalidInput`, `Other`, and opaque OS errors. -/
inductive ErrKind where
  | invalidInput : ErrKind
  | other : ErrKind
  | os : Nat → ErrKind
deriving DecidableEq, Repr

/-- Model of `std::io::Error`: a kind together with a message (empty when the
error was built from a bare `ErrorKind`, as `From<ErrorKind>` does). -/
structure IOError where
  kind : ErrKind
  msg : String
deriving DecidableEq, Repr

/-- The error produced by `.ok_or(io::ErrorKind::InvalidInput)?` when address
resolution yields no socket address. -/
def invalidInputError : IOError := ⟨ErrKind.invalidInput, ""⟩

/-- The error produced by `serve` when no connect handler was configured:
`io::Error::new(io::ErrorKind::Other, "connect handler must be set")`. -/
def handlerNotSetError : IOError := ⟨ErrKind.other, "connect handler must be set"⟩

/-- The error produced when `threadpool.spawn` fails: the `SpawnError`'s debug
representation `s` wrapped as `io::Error::new(Other, format!("Thread pool execute error: ...", e))`. -/
def spawnIOError (s : String) : IOError := ⟨ErrKind.other, "Thread pool execute error: " ++ s⟩

deriving instance DecidableEq for Except

/-- Result of a `serve` invocation over an observed prefix of the incoming
stream: either serve has returned with an `io::Result<()>`, or the accept
loop is still awaiting the next connection (serve has not returned). -/
inductive ServeResult where
  | running : ServeResult
  | returned : Except IOError Unit → ServeResult
deriving DecidableEq, Repr

/-- Observable events of one `serve` execution, in the order the code
performs them.  Accepted connections are identified by their position `i`
in the accept sequence (each accepted `TcpStream` is a fresh object, so the
position is a faithful identity).  `logError i e` records the
`log::error!("connect handler error: ...", e)` call made by the task
handling connection `i`; the logged content is only `e`. -/
inductive Event where
  | createPool : Nat → Event
  | bindSocket : Nat → Event
  | accept : Nat → Event
  | spawn : Nat → Event
  | handlerOk : Nat → Event
  | logError : Nat → IOError → Event
deriving DecidableEq, Repr

/-- The variable content of the log line emitted by `logError`: the source
formats only the error value into the message
(`log::error!("connect handler error: ...", e)`), so the message is
determined by `e` alone. -/
def Event.logContent : Event → Option IOError
  | Event.logError _ e => some e
  | _ => none

/-- Model of `NetServer<H>`: the pool size and the optional shared connect
handler.  A handler is modelled by the outcome its future resolves to on the
`i`-th accepted connection's stream. -/
structure NetServer where
  pool_size : Nat
  connect_handler : Option (Nat → Except IOError Unit)

/-- Model of `NetServer::new()`: `num_cpus::get()` is environment input, so
the number of logical CPUs visible to the process is a parameter `ncpus`;
no handler is configured. -/
def NetServer.new (ncpus : Nat) : NetServer :=
  { pool_size := ncpus, connect_handler := none }

/-- Model of the builder method `NetServer::connect_handler(self, h)`
(named apart from the field projection): stores the handler, shared via
`Arc`, leaving everything else unchanged. -/
def NetServer.set_connect_handler (s : NetServer) (h : Nat → Except IOError Unit) : NetServer :=
  { s with connect_handler := some h }

/-- The public builder operations available on a `NetServer` after
`new`: the only one the source defines is `connect_handler`. -/
inductive BuilderOp where
  | connectHandler : (Nat → Except IOError Unit) → BuilderOp

/-- Apply one builder operation to a server value. -/
def applyOp (s : NetServer) (op : BuilderOp) : NetServer :=
  match op with
  | BuilderOp.connectHandler h => s.set_connect_handler h

/-- Environment of one `serve` call: the outcomes of every external
interaction the code performs, in the shapes the libraries give them. -/
structure NetEnv where
  /-- `addr.to_socket_addrs()`, collected: either the resolver's error or the
  list of resolved socket addresses (addresses modelled as `Nat`). -/
  resolved : Except IOError (List Nat)
  /-- `ThreadPool::builder().pool_size(..).create()` outcome. -/
  poolCreate : Except IOError Unit
  /-- `TcpListener::bind(&addr)` outcome for each address. -/
  bind : Nat → Except IOError Unit
  /-- Observed prefix of `listener.incoming()`: each element is one accept
  outcome (`Ok` wraps a raw `TcpStream`, identified by position). -/
  incoming : List (Except IOError Unit)
  /-- `threadpool.spawn(task)` outcome for the task of the `i`-th accepted
  connection; the error side is the `SpawnError`'s debug representation. -/
  spawnRes : Nat → Except String Unit

/-- Events of the task spawned for the `i`-th accepted connection: the task
awaits `connect_handler.handle(stream)`; on `Ok(())` it does nothing
further, on `Err(e)` it calls `log::error!("connect handler error: ...", e)`. -/
def taskTrace (h : Nat → Except IOError Unit) (i : Nat) : List Event :=
  match h i with
  | Except.ok _ => [Event.handlerOk i]
  | Except.error e => [Event.logError i e]

/-- The accept loop of `serve` (`while let Some(stream) = incoming.next()`),
run over the observed prefix of the incoming stream starting at accept
index `i`, with handler `h` and spawn oracle `sp`.  On a successful accept
the connection is wrapped (`NetStream::new`), the shared handler cloned, and
a task spawned that awaits `handler.handle(stream)` and logs an `Err`
outcome; spawn failure and accept failure return their error.  Exhausting
the prefix leaves the loop running (the real incoming stream never ends). -/
def acceptLoop (h : Nat → Except IOError Unit) (sp : Nat → Except String Unit) :
    Nat → List (Except IOError Unit) → ServeResult × List Event
  | _, [] => (ServeResult.running, [])
  | _, Except.error e :: _ => (ServeResult.returned (Except.error e), [])
  | i, Except.ok _ :: rest =>
    match sp i with
    | Except.error se =>
        (ServeResult.returned (Except.error (spawnIOError se)),
         [Event.accept i, Event.spawn i])
    | Except.ok _ =>
        let t := acceptLoop h sp (i + 1) rest
        (t.1, Event.accept i :: Event.spawn i :: (taskTrace h i ++ t.2))

/-- Model of `NetServer::serve(self, addr)`: resolve the address and take the
first result (`InvalidInput` if none), check the handler is set, then inside
`block_on`: create the thread pool with `self.pool_size`, bind the listener,
and run the accept loop.  The second component is the event trace. -/
def NetServer.serve (s : NetServer) (env : NetEnv) : ServeResult × List Event :=
  match env.resolved with
  | Except.error e => (ServeResult.returned (Except.error e), [])
  | Except.ok addrs =>
    match addrs with
    | [] => (ServeResult.returned (Except.error invalidInputError), [])
    | addr :: _ =>
      match s.connect_handler with
      | none => (ServeResult.returned (Except.error handlerNotSetError), [])
      | some h =>
        match env.poolCreate with
        | Except.error e =>
            (ServeResult.returned (Except.error e), [Event.createPool s.pool_size])
        | Except.ok _ =>
          match env.bind addr with
          | Except.error e =>
              (ServeResult.returned (Except.error e),
               [Event.createPool s.pool_size, Event.bindSocket addr])
          | Except.ok _ =>
            let t := acceptLoop h env.spawnRes 0 env.incoming
            (t.1, Event.createPool s.pool_size :: Event.bindSocket addr :: t.2)

/-- Model of the `Handler<E>` trait of `handler.rs`: a capability with one
method `handle` producing the associated future (modelled by its type
`Fut`). -/
structure Handler (E Fut : Type) where
  handle : E → Fut

/-- The blanket implementation `impl<F, E, Fut> Handler<E> for F where
F: Fn(E) -> Fut`: any function value of matching signature is a handler,
whose `handle` invokes the function itself. -/
def fnHandler {E Fut : Type} (f : E → Fut) : Handler E Fut :=
  { handle := f }

/-- Model of `Poll<T>` from `futures::task`. -/
inductive Poll (α : Type) where
  | ready : α → Poll α
  | pending : Poll α

/-- Model of `romio::tcp::TcpStream` as seen through the four poll
operations `NetStream` uses; each operation is an opaque function of the
task context (modelled as `Nat`) and, for read/write, the buffer (bytes as
`List Nat`; `poll_read` additionally returns the updated buffer since the
source passes `&mut [u8]`). -/
structure TcpStream where
  poll_read : Nat → List Nat → Poll (Except IOError (Nat × List Nat))
  poll_write : Nat → List Nat → Poll (Except IOError Nat)
  poll_flush : Nat → Poll (Except IOError Unit)
  poll_close : Nat → Poll (Except IOError Unit)

/-- Model of `NetStream`: a struct holding exactly the wrapped stream. -/
structure NetStream where
  stream : TcpStream

/-- `NetStream::new`. -/
def NetStream.new (s : TcpStream) : NetStream := ⟨s⟩

/-- `AsyncRead::poll_read` for `NetStream`: `self.stream().poll_read(cx, buf)`. -/
def NetStream.poll_read (ns : NetStream) (cx : Nat) (buf : List Nat) :
    Poll (Except IOError (Nat × List Nat)) :=
  ns.stream.poll_read cx buf

/-- `AsyncWrite::poll_write` for `NetStream`. -/
def NetStream.poll_write (ns : NetStream) (cx : Nat) (buf : List Nat) :
    Poll (Except IOError Nat) :=
  ns.stream.poll_write cx buf

/-- `AsyncWrite::poll_flush` for `NetStream`. -/
def NetStream.poll_flush (ns : NetStream) (cx : Nat) : Poll (Except IOError Unit) :=
  ns.stream.poll_flush cx

/-- `AsyncWrite::poll_close` for `NetStream`. -/
def NetStream.poll_close (ns : NetStream) (cx : Nat) : Poll (Except IOError Unit) :=
  ns.stream.poll_close cx

/-! Concrete fixtures used by witnesses and counterexamples. -/

/-- A handler outcome used in examples: a connection-reset style error. -/
def errX : IOError := ⟨ErrKind.os 104, "connection reset"⟩

/-- A resolver failure used in examples. -/
def errRes : IOError := ⟨ErrKind.os 11, "resolution failure"⟩

/-- A server with a handler that always succeeds. -/
def srvOk : NetServer := (NetServer.new 2).set_connect_handler (fun _ => Except.ok ())

/-- A server whose handler always fails with `errX`. -/
def srvFail : NetServer := (NetServer.new 1).set_connect_handler (fun _ => Except.error errX)

/-- An environment where everything succeeds and no connection has arrived yet. -/
def okEnv : NetEnv :=
  { resolved := Except.ok [0]
    poolCreate := Except.ok ()
    bind := fun _ => Except.ok ()
    incoming := []
    spawnRes := fun _ => Except.ok () }

/-- An environment whose address resolution fails with `errRes`. -/
def envErrRes : NetEnv := { okEnv with resolved := Except.error errRes }

/-- An environment whose address resolution yields no socket address. -/
def envEmptyRes : NetEnv := { okEnv with resolved := Except.ok [] }

/-- An environment delivering two successfully accepted connections. -/
def envTwoConns : NetEnv := { okEnv with incoming := [Except.ok (), Except.ok ()] }

/-! Unfolding lemmas for the accept loop, one per branch of the source. -/

/-- The loop with an exhausted observed prefix is still running. -/
theorem acceptLoop_nil (h : Nat → Except IOError Unit) (sp : Nat → Except String Unit)
    (i : Nat) : acceptLoop h sp i [] = (ServeResult.running, []) := rfl

/-- A failed accept terminates the loop with the accept error. -/
theorem acceptLoop_acceptErr (h : Nat → Except IOError Unit) (sp : Nat → Except String Unit)
    (i : Nat) (e : IOError) (rest : List (Except IOError Unit)) :
    acceptLoop h sp i (Except.error e :: rest) =
      (ServeResult.returned (Except.error e), []) := rfl

/-- A failed pool submission terminates the loop with the wrapped spawn error. -/
theorem acceptLoop_spawnErr (h : Nat → Except IOError Unit) (sp : Nat → Except String Unit)
    (i : Nat) (se : String) (rest : List (Except IOError Unit))
    (hsp : sp i = Except.error se) :
    acceptLoop h sp i (Except.ok () :: rest) =
      (ServeResult.returned (Except.error (spawnIOError se)),
       [Event.accept i, Event.spawn i]) := by
  simp [acceptLoop, hsp]

/-- A successful accept and submission contributes the accept, spawn and task
events and continues with the rest of the prefix at the next index. -/
theorem acceptLoop_spawnOk (h : Nat → Except IOError Unit) (sp : Nat → Except String Unit)
    (i : Nat) (rest : List (Except IOError Unit)) (hsp : sp i = Except.ok ()) :
    acceptLoop h sp i (Except.ok () :: rest) =
      ((acceptLoop h sp (i + 1) rest).1,
       Event.accept i :: Event.spawn i ::
         (taskTrace h i ++ (acceptLoop h sp (i + 1) rest).2)) := by
  simp [acceptLoop, hsp]

/-- Every event of a spawned task concerns that task's own connection and is
a handler outcome: `handlerOk i` or `logError i e`. -/
theorem taskTrace_mem (h : Nat → Except IOError Unit) (i : Nat) :
    ∀ e ∈ taskTrace h i, e = Event.handlerOk i ∨ ∃ er, e = Event.logError i er := by
  intro e he
  unfold taskTrace at he
  cases hh : h i with
  | ok u => rw [hh] at he; simp at he; left; exact he
  | error er => rw [hh] at he; simp at he; right; exact ⟨er, he⟩

/-- A spawned task reports its handler outcome: either success or a logged error. -/
theorem taskTrace_outcome (h : Nat → Except IOError Unit) (i : Nat) :
    Event.handlerOk i ∈ taskTrace h i ∨ ∃ e, Event.logError i e ∈ taskTrace h i := by
  unfold taskTrace
  cases h i with
  | ok u => left; simp
  | error er => right; exact ⟨er, by simp⟩

/-! Claim theorems. -/

/-- C1: for every server with no handler configured and every address that
resolves to at least one socket address, `serve` fails with the
`HandlerNotSet` error (`Other`, "connect handler must be set"), and its
trace is empty — in particular no listening socket is bound. -/
theorem serve_no_handler_fails_before_bind
    (s : NetServer) (env : NetEnv) (addrs : List Nat)
    (hnone : s.connect_handler = none)
    (hres : env.resolved = Except.ok addrs) (hne : addrs ≠ []) :
    s.serve env = (ServeResult.returned (Except.error handlerNotSetError), []) ∧
      ∀ a, Event.bindSocket a ∉ (s.serve env).2 := by
  cases addrs with
  | nil => exact absurd rfl hne
  | cons a rest =>
      have h1 : s.serve env = (ServeResult.returned (Except.error handlerNotSetError), []) := by
        simp [NetServer.serve, hres, hnone]
      refine ⟨h1, ?_⟩
      intro a' hmem
      rw [h1] at hmem
      simp at hmem

/-- Witness for C1 at a concrete server and environment. -/
theorem serve_no_handler_fails_before_bind_w :
    (NetServer.new 4).serve okEnv =
        (ServeResult.returned (Except.error handlerNotSetError), []) ∧
      ∀ a, Event.bindSocket a ∉ ((NetServer.new 4).serve okEnv).2 :=
  serve_no_handler_fails_before_bind (NetServer.new 4) okEnv [0] rfl rfl (by decide)

/-- C7: `serve` uses the first socket address produced by resolution (the
bind is performed on the head of the resolved list, the tail is ignored),
and when resolution yields no address it fails immediately — empty trace —
with the `InvalidInput` error (the spec's `InvalidAddress`). -/
theorem serve_first_addr_and_empty_resolution (s : NetServer) (env : NetEnv) :
    (env.resolved = Except.ok [] →
        s.serve env = (ServeResult.returned (Except.error invalidInputError), [])) ∧
    (∀ a rest h, env.resolved = Except.ok (a :: rest) → s.connect_handler = some h →
        env.poolCreate = Except.ok () → env.bind a = Except.ok () →
        s.serve env =
          ((acceptLoop h env.spawnRes 0 env.incoming).1,
           Event.createPool s.pool_size :: Event.bindSocket a ::
             (acceptLoop h env.spawnRes 0 env.incoming).2)) := by
  constructor
  · intro he
    simp [NetServer.serve, he]
  · intro a rest h hres hh hp hb
    simp [NetServer.serve, hres, hh, hp, hb]

/-- Witness for C7: empty resolution fails with `InvalidInput`, and with a
two-address resolution the first address is the one bound. -/
theorem serve_first_addr_and_empty_resolution_w :
    (NetServer.new 4).serve envEmptyRes =
        (ServeResult.returned (Except.error invalidInputError), []) ∧
      srvOk.serve { okEnv with resolved := Except.ok [5, 9] } =
        ((acceptLoop (fun _ => Except.ok ()) okEnv.spawnRes 0 okEnv.incoming).1,
         Event.createPool 2 :: Event.bindSocket 5 ::
           (acceptLoop (fun _ => Except.ok ()) okEnv.spawnRes 0 okEnv.incoming).2) :=
  ⟨(serve_first_addr_and_empty_resolution (NetServer.new 4) envEmptyRes).1 rfl,
   (serve_first_addr_and_empty_resolution srvOk
      { okEnv with resolved := Except.ok [5, 9] }).2 5 [9]
     (fun _ => Except.ok ()) rfl rfl rfl rfl⟩

/-- C9: address resolution happens before the missing-handler check — with
no handler configured, a resolution failure is returned as is, and an empty
resolution yields `InvalidInput`; neither is the `HandlerNotSet` error. -/
theorem serve_resolution_before_handler_check
    (s : NetServer) (env : NetEnv) (_hnone : s.connect_handler = none) :
    (∀ e, env.resolved = Except.error e →
        s.serve env = (ServeResult.returned (Except.error e), [])) ∧
    (env.resolved = Except.ok [] →
        s.serve env = (ServeResult.returned (Except.error invalidInputError), [])) ∧
    invalidInputError ≠ handlerNotSetError := by
  refine ⟨?_, ?_, by decide⟩
  · intro e he
    simp [NetServer.serve, he]
  · intro he
    simp [NetServer.serve, he]

/-- Witness for C9: a handler-less server with a failing resolver returns
the resolver's error, not `HandlerNotSet`. -/
theorem serve_resolution_before_handler_check_w :
    (NetServer.new 4).serve envErrRes =
        (ServeResult.returned (Except.error errRes), []) ∧
      errRes ≠ handlerNotSetError :=
  ⟨(serve_resolution_before_handler_check (NetServer.new 4) envErrRes rfl).1 errRes rfl,
   by decide⟩

/-- C8: the blanket `impl Handler for F` makes every function of matching
signature a handler with no named wrapper, and its `handle` is exactly
application of the function. -/
theorem fn_satisfies_handler {E Fut : Type} (f : E → Fut) (e : E) :
    (fnHandler f).handle e = f e := rfl

/-- C10: `NetStream` is an exact pass-through — each of its four poll
operations delegates to the wrapped `TcpStream`'s operation with the same
arguments and returns its result unchanged, and wrapping preserves the
underlying stream. -/
theorem netStream_passthrough (s : TcpStream) (cx : Nat) (buf : List Nat) :
    (NetStream.new s).poll_read cx buf = s.poll_read cx buf ∧
    (NetStream.new s).poll_write cx buf = s.poll_write cx buf ∧
    (NetStream.new s).poll_flush cx = s.poll_flush cx ∧
    (NetStream.new s).poll_close cx = s.poll_close cx ∧
    (NetStream.new s).stream = s :=
  ⟨rfl, rfl, rfl, rfl, rfl⟩

/-- No event of the accept loop's trace is a pool-creation or socket-bind
event: those occur only in the setup phase of `serve`. -/
theorem acceptLoop_no_setup_events (h : Nat → Except IOError Unit)
    (sp : Nat → Except String Unit) :
    ∀ (evs : List (Except IOError Unit)) (i n : Nat),
      Event.createPool n ∉ (acceptLoop h sp i evs).2 ∧
      Event.bindSocket n ∉ (acceptLoop h sp i evs).2 := by
  intro evs
  induction evs with
  | nil => intro i n; simp [acceptLoop]
  | cons ev rest ih =>
      intro i n
      cases ev with
      | error e => simp [acceptLoop]
      | ok u =>
          cases u
          cases hsp : sp i with
          | error se => rw [acceptLoop_spawnErr h sp i se rest hsp]; simp
          | ok v =>
              cases v
              rw [acceptLoop_spawnOk h sp i rest hsp]
              have hT := taskTrace_mem h i
              constructor
              · simp only [List.mem_cons, List.mem_append]
                rintro (hc | hc | hc | hc)
                · exact Event.noConfusion hc
                · exact Event.noConfusion hc
                · rcases hT _ hc with he | ⟨er, he⟩ <;> exact Event.noConfusion he
                · exact (ih (i + 1) n).1 hc
              · simp only [List.mem_cons, List.mem_append]
                rintro (hc | hc | hc | hc)
                · exact Event.noConfusion hc
                · exact Event.noConfusion hc
                · rcases hT _ hc with he | ⟨er, he⟩ <;> exact Event.noConfusion he
                · exact (ih (i + 1) n).2 hc

/-- C2 counterexample: a fully successful `serve` (handler set, resolution,
pool creation and bind all succeed, accept loop entered) produces the trace
`[createPool, bindSocket]` — the worker pool is created strictly before the
listening socket is bound, so the bind does not precede pool creation as
the claim states. -/
theorem serve_bind_before_pool_counterexample :
    (srvOk.serve okEnv).1 = ServeResult.running ∧
    (srvOk.serve okEnv).2 = [Event.createPool 2, Event.bindSocket 0] ∧
    ¬ (srvOk.serve okEnv).2.indexOf (Event.bindSocket 0) <
        (srvOk.serve okEnv).2.indexOf (Event.createPool 2) := by
  decide

/-- C2 amended: in every successful invocation of `serve`, after address
resolution and the handler check the worker pool is created first, then the
listening socket is bound, then the accept loop is entered; the loop's
trace contains no further pool-creation or bind events. -/
theorem serve_pool_then_bind_then_loop
    (s : NetServer) (env : NetEnv) (a : Nat) (rest : List Nat)
    (h : Nat → Except IOError Unit)
    (hh : s.connect_handler = some h) (hres : env.resolved = Except.ok (a :: rest))
    (hp : env.poolCreate = Except.ok ()) (hb : env.bind a = Except.ok ()) :
    (s.serve env).2 =
        Event.createPool s.pool_size :: Event.bindSocket a ::
          (acceptLoop h env.spawnRes 0 env.incoming).2 ∧
      (∀ n, Event.createPool n ∉ (acceptLoop h env.spawnRes 0 env.incoming).2) ∧
      (∀ n, Event.bindSocket n ∉ (acceptLoop h env.spawnRes 0 env.incoming).2) := by
  refine ⟨?_, fun n => (acceptLoop_no_setup_events h env.spawnRes env.incoming 0 n).1,
    fun n => (acceptLoop_no_setup_events h env.spawnRes env.incoming 0 n).2⟩
  simp [NetServer.serve, hres, hh, hp, hb]

/-- Witness for the amended C2 at a concrete server and environment. -/
theorem serve_pool_then_bind_then_loop_w :
    (srvOk.serve envTwoConns).2 =
        Event.createPool 2 :: Event.bindSocket 0 ::
          (acceptLoop (fun _ => Except.ok ()) envTwoConns.spawnRes 0 envTwoConns.incoming).2 ∧
      (∀ n, Event.createPool n ∉
          (acceptLoop (fun _ => Except.ok ()) envTwoConns.spawnRes 0 envTwoConns.incoming).2) ∧
      (∀ n, Event.bindSocket n ∉
          (acceptLoop (fun _ => Except.ok ()) envTwoConns.spawnRes 0 envTwoConns.incoming).2) :=
  serve_pool_then_bind_then_loop srvOk envTwoConns 0 []
    (fun _ => Except.ok ()) rfl rfl rfl rfl

/-- C3 counterexample: no public builder operation changes the pool size —
there is no caller override.  Applied to a server freshly constructed with
4 visible CPUs, every available operation leaves `pool_size` at 4. -/
theorem pool_size_override_counterexample :
    ¬ ∃ op : BuilderOp, (applyOp (NetServer.new 4) op).pool_size ≠ 4 := by
  rintro ⟨op, hne⟩
  cases op
  exact hne rfl

/-- C3 amended: the pool size defaults to the number of logical CPUs visible
at construction and is immutable — no sequence of the public builder
operations changes it, and the caller has no override. -/
theorem pool_size_default_and_immutable (ncpus : Nat) (ops : List BuilderOp) :
    (NetServer.new ncpus).pool_size = ncpus ∧
      (ops.foldl applyOp (NetServer.new ncpus)).pool_size = ncpus := by
  constructor
  · rfl
  · have hgen : ∀ (l : List BuilderOp) (s : NetServer),
        (l.foldl applyOp s).pool_size = s.pool_size := by
      intro l
      induction l with
      | nil => intro s; rfl
      | cons op l ih =>
          intro s
          cases op
          exact ih _
    exact hgen ops (NetServer.new ncpus)

/-- An environment whose single observed accept fails with `errX`. -/
def envAcceptErr : NetEnv := { okEnv with incoming := [Except.error errX] }

/-- If the accept loop has returned, the returned value is an error that is
either an accept failure taken from the incoming stream or a wrapped pool
submission failure. -/
theorem acceptLoop_returns_only_errors (h : Nat → Except IOError Unit)
    (sp : Nat → Except String Unit) :
    ∀ (evs : List (Except IOError Unit)) (i : Nat) (r : Except IOError Unit),
      (acceptLoop h sp i evs).1 = ServeResult.returned r →
      (∃ e, Except.error e ∈ evs ∧ r = Except.error e) ∨
      (∃ j se, sp j = Except.error se ∧ r = Except.error (spawnIOError se)) := by
  intro evs
  induction evs with
  | nil =>
      intro i r hr
      rw [acceptLoop_nil] at hr
      exact absurd hr (by simp)
  | cons ev rest ih =>
      intro i r hr
      cases ev with
      | error e =>
          rw [acceptLoop_acceptErr] at hr
          simp only at hr
          left
          exact ⟨e, by simp, (ServeResult.returned.inj hr).symm⟩
      | ok u =>
          cases u
          cases hsp : sp i with
          | error se =>
              rw [acceptLoop_spawnErr h sp i se rest hsp] at hr
              simp only at hr
              right
              exact ⟨i, se, hsp, (ServeResult.returned.inj hr).symm⟩
          | ok v =>
              cases v
              rw [acceptLoop_spawnOk h sp i rest hsp] at hr
              simp only at hr
              rcases ih (i + 1) r hr with ⟨e, hm, hre⟩ | hother
              · exact Or.inl ⟨e, List.mem_cons_of_mem _ hm, hre⟩
              · exact Or.inr hother

/-- With no accept failure in the observed prefix and every pool submission
succeeding, the accept loop is still running: serve has not returned. -/
theorem acceptLoop_runs_without_errors (h : Nat → Except IOError Unit)
    (sp : Nat → Except String Unit) :
    ∀ (evs : List (Except IOError Unit)) (i : Nat),
      (∀ e, Except.error e ∉ evs) → (∀ j, sp j = Except.ok ()) →
      (acceptLoop h sp i evs).1 = ServeResult.running := by
  intro evs
  induction evs with
  | nil => intro i _ _; rfl
  | cons ev rest ih =>
      intro i hne hsp
      cases ev with
      | error e => exact absurd (List.mem_cons_self _ _) (hne e)
      | ok u =>
          cases u
          rw [acceptLoop_spawnOk h sp i rest (hsp i)]
          simpa using ih (i + 1) (fun e hm => hne e (List.mem_cons_of_mem _ hm)) hsp

/-- C5: once the accept loop is entered, `serve` returns only because an
accept produced a fatal I/O error or a pool submission failed, and the value
returned is that error; while no such failure has occurred serve has not
returned. -/
theorem serve_exits_only_on_fatal
    (s : NetServer) (env : NetEnv) (a : Nat) (rest : List Nat)
    (h : Nat → Except IOError Unit)
    (hh : s.connect_handler = some h) (hres : env.resolved = Except.ok (a :: rest))
    (hp : env.poolCreate = Except.ok ()) (hb : env.bind a = Except.ok ()) :
    (∀ r, (s.serve env).1 = ServeResult.returned r →
        (∃ e, Except.error e ∈ env.incoming ∧ r = Except.error e) ∨
        (∃ j se, env.spawnRes j = Except.error se ∧
            r = Except.error (spawnIOError se))) ∧
    ((∀ e, Except.error e ∉ env.incoming) →
        (∀ j, env.spawnRes j = Except.ok ()) →
        (s.serve env).1 = ServeResult.running) := by
  have hs : (s.serve env).1 = (acceptLoop h env.spawnRes 0 env.incoming).1 := by
    simp [NetServer.serve, hres, hh, hp, hb]
  constructor
  · intro r hr
    rw [hs] at hr
    exact acceptLoop_returns_only_errors h env.spawnRes env.incoming 0 r hr
  · intro h1 h2
    rw [hs]
    exact acceptLoop_runs_without_errors h env.spawnRes env.incoming 0 h1 h2

/-- Witness for C5: with one failed accept, the value serve returned is that
accept's error. -/
theorem serve_exits_only_on_fatal_w :
    (∃ e, Except.error e ∈ envAcceptErr.incoming ∧
        (Except.error errX : Except IOError Unit) = Except.error e) ∨
    (∃ j se, envAcceptErr.spawnRes j = Except.error se ∧
        (Except.error errX : Except IOError Unit) = Except.error (spawnIOError se)) :=
  (serve_exits_only_on_fatal srvOk envAcceptErr 0 [] (fun _ => Except.ok ())
    rfl rfl rfl rfl).1 (Except.error errX) rfl

/-- Formalisation of "logged with enough context to identify the failing
connection": the variable content of the log line (`logContent`, which the
source limits to the error value) determines which connection failed. -/
def logIdentifiesConn (tr : List Event) : Prop :=
  ∀ i j e1 e2, Event.logError i e1 ∈ tr → Event.logError j e2 ∈ tr →
    (Event.logError i e1).logContent = (Event.logError j e2).logContent → i = j

/-- C4 counterexample: two distinct connections whose handlers fail with the
same error produce log lines with identical content (the source logs only
the error, `log::error!("connect handler error: ...", e)`), so the log does
not identify the failing connection. -/
theorem handler_error_log_context_counterexample :
    ¬ logIdentifiesConn (srvFail.serve envTwoConns).2 := by
  intro hid
  have h01 : (0 : Nat) = 1 := hid 0 1 errX errX (by decide) (by decide) rfl
  exact absurd h01 (by decide)

/-- C4 amended: a handler `Err` outcome is recovered locally — the error is
logged (the log content is exactly the error value, with no
connection-identifying context), the accept loop continues with the
remaining connections, and the loop's final result is unaffected by the
handler error; on `Ok` nothing is logged and nothing further is done. -/
theorem handler_error_recovered_locally
    (h : Nat → Except IOError Unit) (sp : Nat → Except String Unit)
    (i : Nat) (rest : List (Except IOError Unit)) (hsp : sp i = Except.ok ()) :
    (∀ e, h i = Except.error e →
        acceptLoop h sp i (Except.ok () :: rest) =
          ((acceptLoop h sp (i + 1) rest).1,
           Event.accept i :: Event.spawn i :: Event.logError i e ::
             (acceptLoop h sp (i + 1) rest).2) ∧
          (Event.logError i e).logContent = some e) ∧
    (h i = Except.ok () →
        acceptLoop h sp i (Except.ok () :: rest) =
          ((acceptLoop h sp (i + 1) rest).1,
           Event.accept i :: Event.spawn i :: Event.handlerOk i ::
             (acceptLoop h sp (i + 1) rest).2)) := by
  constructor
  · intro e he
    refine ⟨?_, rfl⟩
    rw [acceptLoop_spawnOk h sp i rest hsp]
    simp [taskTrace, he]
  · intro he
    rw [acceptLoop_spawnOk h sp i rest hsp]
    simp [taskTrace, he]

/-- Witness for the amended C4 at a concrete always-failing handler. -/
theorem handler_error_recovered_locally_w :
    acceptLoop (fun _ => Except.error errX) (fun _ => Except.ok ()) 0 [Except.ok ()] =
      ((acceptLoop (fun _ => Except.error errX) (fun _ => Except.ok ()) 1 []).1,
       Event.accept 0 :: Event.spawn 0 :: Event.logError 0 errX ::
         (acceptLoop (fun _ => Except.error errX) (fun _ => Except.ok ()) 1 []).2) ∧
      (Event.logError 0 errX).logContent = some errX :=
  (handler_error_recovered_locally (fun _ => Except.error errX)
      (fun _ => Except.ok ()) 0 [] rfl).1 errX rfl

/-- A task's trace never contains accept or spawn events: those belong to
the accept loop itself. -/
theorem taskTrace_no_accept_spawn (h : Nat → Except IOError Unit) (i j : Nat) :
    Event.accept j ∉ taskTrace h i ∧ Event.spawn j ∉ taskTrace h i := by
  constructor <;> intro hm <;>
    rcases taskTrace_mem h i _ hm with he | ⟨er, he⟩ <;> exact Event.noConfusion he

/-- Accept and spawn events in the loop's trace carry indices no smaller
than the loop's starting index: indices increase strictly along the loop. -/
theorem acceptLoop_mem_ge (h : Nat → Except IOError Unit)
    (sp : Nat → Except String Unit) :
    ∀ (evs : List (Except IOError Unit)) (i j : Nat),
      (Event.accept j ∈ (acceptLoop h sp i evs).2 ∨
       Event.spawn j ∈ (acceptLoop h sp i evs).2) → i ≤ j := by
  intro evs
  induction evs with
  | nil =>
      intro i j hm
      rw [acceptLoop_nil] at hm
      simp at hm
  | cons ev rest ih =>
      intro i j hm
      cases ev with
      | error e =>
          rw [acceptLoop_acceptErr] at hm
          simp at hm
      | ok u =>
          cases u
          cases hsp : sp i with
          | error se =>
              rw [acceptLoop_spawnErr h sp i se rest hsp] at hm
              rcases hm with hm | hm <;> simp at hm <;> omega
          | ok v =>
              cases v
              rw [acceptLoop_spawnOk h sp i rest hsp] at hm
              have h1 := taskTrace_no_accept_spawn h i j
              rcases hm with hm | hm
              · simp [h1.1] at hm
                rcases hm with hm | hm
                · omega
                · have := ih (i + 1) j (Or.inl hm)
                  omega
              · simp [h1.2] at hm
                rcases hm with hm | hm
                · omega
                · have := ih (i + 1) j (Or.inr hm)
                  omega

/-- C6: every connection the accept loop accepts is submitted to the worker
pool exactly once — its accept and spawn events each occur exactly once in
the loop's trace — and the connection is not dropped silently: either its
spawned task reports the handler outcome (success, or a logged error), or
the loop terminated returning an error. -/
theorem acceptLoop_conn_exactly_once (h : Nat → Except IOError Unit)
    (sp : Nat → Except String Unit) :
    ∀ (evs : List (Except IOError Unit)) (i j : Nat),
      Event.accept j ∈ (acceptLoop h sp i evs).2 →
      ((acceptLoop h sp i evs).2.count (Event.accept j) = 1 ∧
       (acceptLoop h sp i evs).2.count (Event.spawn j) = 1 ∧
       (Event.handlerOk j ∈ (acceptLoop h sp i evs).2 ∨
        (∃ e, Event.logError j e ∈ (acceptLoop h sp i evs).2) ∨
        (∃ e, (acceptLoop h sp i evs).1 =
          ServeResult.returned (Except.error e)))) := by
  intro evs
  induction evs with
  | nil =>
      intro i j hm
      rw [acceptLoop_nil] at hm
      simp at hm
  | cons ev rest ih =>
      intro i j hm
      cases ev with
      | error e =>
          rw [acceptLoop_acceptErr] at hm
          simp at hm
      | ok u =>
          cases u
          cases hsp : sp i with
          | error se =>
              rw [acceptLoop_spawnErr h sp i se rest hsp] at hm ⊢
              simp at hm
              subst hm
              refine ⟨by simp [List.count_cons], by simp [List.count_cons], ?_⟩
              exact Or.inr (Or.inr ⟨spawnIOError se, rfl⟩)
          | ok v =>
              cases v
              rw [acceptLoop_spawnOk h sp i rest hsp] at hm ⊢
              have htt := taskTrace_no_accept_spawn h i j
              simp only [htt.1] at hm
              simp only [List.mem_cons, List.mem_append] at hm
              rcases hm with hm | hm | hm | hm
              · -- accept j = accept i
                have hji : j = i := by
                  injection hm
                subst hji
                have hz1 : (acceptLoop h sp (j + 1) rest).2.count (Event.accept j) = 0 :=
                  List.count_eq_zero.mpr (fun hc => by
                    have := acceptLoop_mem_ge h sp rest (j + 1) j (Or.inl hc)
                    omega)
                have hz2 : (acceptLoop h sp (j + 1) rest).2.count (Event.spawn j) = 0 :=
                  List.count_eq_zero.mpr (fun hc => by
                    have := acceptLoop_mem_ge h sp rest (j + 1) j (Or.inr hc)
                    omega)
                have hz3 : (taskTrace h j).count (Event.accept j) = 0 :=
                  List.count_eq_zero.mpr (taskTrace_no_accept_spawn h j j).1
                have hz4 : (taskTrace h j).count (Event.spawn j) = 0 :=
                  List.count_eq_zero.mpr (taskTrace_no_accept_spawn h j j).2
                refine ⟨?_, ?_, ?_⟩
                · simp [List.count_cons, List.count_append, hz1, hz3]
                · simp [List.count_cons, List.count_append, hz2, hz4]
                · rcases taskTrace_outcome h j with hOk | ⟨e, hLog⟩
                  · exact Or.inl (by simp [List.mem_cons, List.mem_append, hOk])
                  · exact Or.inr (Or.inl ⟨e, by simp [List.mem_cons, List.mem_append, hLog]⟩)
              · exact absurd hm (by simp)
              · exact absurd hm htt.1
              · -- accept j in the tail of the loop
                have hge : i + 1 ≤ j := acceptLoop_mem_ge h sp rest (i + 1) j (Or.inl hm)
                have hne : j ≠ i := by omega
                have hne' : i ≠ j := by omega
                obtain ⟨hc1, hc2, hc3⟩ := ih (i + 1) j hm
                have hz3 : (taskTrace h i).count (Event.accept j) = 0 :=
                  List.count_eq_zero.mpr (taskTrace_no_accept_spawn h i j).1
                have hz4 : (taskTrace h i).count (Event.spawn j) = 0 :=
                  List.count_eq_zero.mpr (taskTrace_no_accept_spawn h i j).2
                refine ⟨?_, ?_, ?_⟩
                · simp [List.count_cons, List.count_append, hz3, hc1, hne, hne']
                · simp [List.count_cons, List.count_append, hz4, hc2, hne, hne']
                · rcases hc3 with hOk | ⟨e, hLog⟩ | ⟨e, hRes⟩
                  · exact Or.inl (by simp [List.mem_cons, List.mem_append, hOk])
                  · exact Or.inr (Or.inl ⟨e, by simp [List.mem_cons, List.mem_append, hLog]⟩)
                  · exact Or.inr (Or.inr ⟨e, by simpa using hRes⟩)

/-- Witness for C6: in a run with two accepted connections, connection 0 is
accepted once, submitted once, and its handler outcome is reported. -/
theorem acceptLoop_conn_exactly_once_w :
    (acceptLoop (fun _ => Except.ok ()) (fun _ => Except.ok ()) 0
        [Except.ok (), Except.ok ()]).2.count (Event.accept 0) = 1 ∧
      (acceptLoop (fun _ => Except.ok ()) (fun _ => Except.ok ()) 0
        [Except.ok (), Except.ok ()]).2.count (Event.spawn 0) = 1 ∧
      (Event.handlerOk 0 ∈ (acceptLoop (fun _ => Except.ok ()) (fun _ => Except.ok ()) 0
          [Except.ok (), Except.ok ()]).2 ∨
        (∃ e, Event.logError 0 e ∈ (acceptLoop (fun _ => Except.ok ()) (fun _ => Except.ok ()) 0
          [Except.ok (), Except.ok ()]).2) ∨
        (∃ e, (acceptLoop (fun _ => Except.ok ()) (fun _ => Except.ok ()) 0
          [Except.ok (), Except.ok ()]).1 = ServeResult.returned (Except.error e))) :=
  acceptLoop_conn_exactly_once (fun _ => Except.ok ()) (fun _ => Except.ok ())
    [Except.ok (), Except.ok ()] 0 0 (by decide)
